import Mathlib

/-
Verification development for the ncar-dask-monitor job-accounting pipeline
(`ncar_dask_monitor/report_generator.py` and its callers).

The pandas DataFrame operations used by the pipeline are shallowly embedded
over lists of records whose numeric entries are rationals.  IEEE special
values that the code can produce (the unguarded division
`Unused Mem / Req Mem * 100` on a zero `Req Mem`) are represented explicitly
by the `PdFloat` type; a missing value (pandas NaN coming from the `-`
sentinel or from `dropna`-relevant holes) is represented by `Option`.
-/

namespace NDM

/-- Result of a pandas floating-point computation: a finite rational, one of
the two infinities, or NaN.  Used for the derived utilization percentage,
which the source computes with an unguarded division. -/
inductive PdFloat where
  | fin (q : ℚ)
  | pinf
  | ninf
  | nan
deriving DecidableEq, Repr

/-- Whether a `PdFloat` is the NaN value (pandas `dropna` removes exactly
these, while infinities are kept). -/
def pdIsNan : PdFloat → Bool
  | .nan => true
  | _ => false

/-- Embedding of `dask_jobs["Unused Mem"] / dask_jobs["Req Mem"] * 100.0`
(report_generator.py lines 204-206) for one row, with IEEE float semantics
for the zero divisor: `x / 0` is `+inf` for `x > 0`, `-inf` for `x < 0`, and
NaN for `x = 0`; multiplying by 100 preserves the special values. -/
def pctOf (req used : ℚ) : PdFloat :=
  if req = 0 then
    if req - used > 0 then .pinf
    else if req - used < 0 then .ninf
    else .nan
  else .fin ((req - used) / req * 100)

/-
Worker-name selection.  The source filters with
`jobs["Job Name"].str.contains(self.worker)` (line 174); pandas
`Series.str.contains` defaults to `regex=True` and `case=True`, i.e. it is
`re.search(pattern, name)`.  The regular-expression fragment embedded below
consists of atoms — a literal character or `.` (any character other than a
newline) — each optionally followed by one of the single-atom quantifiers
`*`, `+`, `?`.  The predicate `modelPat` recognises exactly the pattern
strings of this fragment, on which `reSearch` agrees with Python
`re.search`; it covers the patterns this program passes — the hard-coded
default worker `"dask"` (JobsSummary.__init__) and the CLI default
`"dask*"` (dask_mem_usage.py line 114).  Richer constructs (character
classes, groups, alternation, escapes, anchors, counted repetition) are
outside the fragment, and every statement that speaks about `re.search`
semantics is scoped to the fragment by `modelPat` — except the
literal-containment equivalence, which requires the pattern to contain no
regex metacharacter at all.
-/

/-- A regex atom: a literal character, or `.` matching any character other
than a newline. -/
inductive RAtom where
  | lit (c : Char)
  | dot
deriving DecidableEq, Repr

/-- One element of the regex fragment: an atom, or an atom under one of
the quantifiers `*` (zero or more), `+` (one or more), `?` (zero or
one). -/
inductive RElem where
  | once (a : RAtom)
  | star (a : RAtom)
  | plus (a : RAtom)
  | opt (a : RAtom)
deriving DecidableEq, Repr

/-- The characters Python `re` treats specially. -/
def isMetaChar (c : Char) : Bool :=
  c == '.' || c == '^' || c == '$' || c == '*' || c == '+' || c == '?' ||
  c == '\x7b' || c == '\x7d' || c == '[' || c == ']' || c == '\\' ||
  c == '|' || c == '(' || c == ')'

/-- The single-atom quantifier characters. -/
def isQuantChar (c : Char) : Bool :=
  c == '*' || c == '+' || c == '?'

/-- Characters the fragment accepts as an atom: any non-metacharacter,
plus `.`. -/
def atomChar (c : Char) : Bool :=
  !(isMetaChar c) || c == '.'

/-- The pattern strings of the embedded fragment: a sequence of atom
characters, each optionally followed by a quantifier.  On these patterns
`reSearch` coincides with Python `re.search`. -/
def modelPat : List Char → Bool
  | [] => true
  | [c] => atomChar c
  | c :: d :: rest =>
    atomChar c &&
      (if isQuantChar d then modelPat rest else modelPat (d :: rest))

/-- Parse one pattern character into an atom. -/
def parseAtom (c : Char) : RAtom :=
  if c = '.' then .dot else .lit c

/-- Parse a pattern string into regex elements: a quantifier character
applies to the preceding atom, every other character is an atom on its
own. -/
def parsePat : List Char → List RElem
  | [] => []
  | [c] => [.once (parseAtom c)]
  | c :: d :: rest =>
    if d = '*' then .star (parseAtom c) :: parsePat rest
    else if d = '+' then .plus (parseAtom c) :: parsePat rest
    else if d = '?' then .opt (parseAtom c) :: parsePat rest
    else .once (parseAtom c) :: parsePat (d :: rest)

/-- Whether an atom matches one character (`.` matches anything but a
newline, as Python `re` without DOTALL). -/
def matchAtom : RAtom → Char → Bool
  | .lit d, c => d == c
  | .dot, c => !(c == '\n')

/-- Match zero or more copies of the atom `a`, then hand the remaining
text to the continuation `k`. -/
def starLoop (a : RAtom) (k : List Char → Bool) : List Char → Bool
  | [] => k []
  | x :: xs => k (x :: xs) || (matchAtom a x && starLoop a k xs)

/-- Match a list of regex elements against a prefix of the text (Python
`re` semantics at one fixed starting position; greediness is irrelevant
for the existence of a match). -/
def matchElems : List RElem → List Char → Bool
  | [], _ => true
  | .once _ :: _, [] => false
  | .once a :: es, x :: xs => matchAtom a x && matchElems es xs
  | .star a :: es, l => starLoop a (matchElems es) l
  | .plus _ :: _, [] => false
  | .plus a :: es, x :: xs => matchAtom a x && starLoop a (matchElems es) xs
  | .opt _ :: es, [] => matchElems es []
  | .opt a :: es, x :: xs =>
    matchElems es (x :: xs) || (matchAtom a x && matchElems es xs)

/-- Try matching the elements at every starting position of the text
(Python `re.search`). -/
def searchFrom (es : List RElem) : List Char → Bool
  | [] => matchElems es []
  | x :: xs => matchElems es (x :: xs) || searchFrom es xs

/-- Embedding of `re.search(pat, hay) is not None`, i.e. of pandas
`Series.str.contains(pat)` (its `regex=True` default) applied to `hay`;
faithful to Python on patterns satisfying `modelPat`. -/
def reSearch (pat hay : String) : Bool :=
  searchFrom (parsePat pat.toList) hay.toList

/-- Whether `pat` is an initial segment of `hay` (character-wise). -/
def leadMatch : List Char → List Char → Bool
  | [], _ => true
  | _ :: _, [] => false
  | p :: ps, h :: hs => p == h && leadMatch ps hs

/-- Whether `hay` contains `pat` as a contiguous literal substring. -/
def hasSub (hay pat : List Char) : Bool :=
  match hay with
  | [] => leadMatch pat []
  | x :: t => leadMatch pat (x :: t) || hasSub t pat

/-- Literal (non-regex) substring containment on strings: the semantics the
specification ascribes to the worker-name filter. -/
def strContainsLit (hay pat : String) : Bool :=
  hasSub hay.toList pat.toList

/-
The job table.  One `Row` models one line of the qhist export after
ingestion, restricted to the columns the pipeline reads: `User`, `Queue`,
`Job Name`, `Job Start`, `Job End`, `Req Mem`, `Used Mem`, `Elapsed`, the
derived `Elapsed (h)`, and `Avg CPU`.  `Option` encodes missing values
(pandas NaN/NaT).  The two derived columns added by the filter
(`Unused Mem` and `Unused Mem (%)`, lines 201-206) are modelled by the
`derived` field: `none` when the columns are absent (the table has not been
through the filter yet), `some (m, p)` for a row carrying unused memory `m`
and unused-memory percentage `p`.  Timestamps are rationals (epoch
seconds). -/
@[ext]
structure Row where
  user : Option String
  queue : Option String
  jobName : Option String
  jobStart : Option ℚ
  jobEnd : Option ℚ
  reqMem : Option ℚ
  usedMem : Option ℚ
  elapsed : Option ℚ
  elapsedH : Option ℚ
  avgCpu : Option ℚ
  derived : Option (ℚ × PdFloat)
deriving DecidableEq, Repr

/-- Embedding of `dask_jobs.dropna()`'s per-row test (line 186): a row is
dropped when any modelled column holds a missing value; a derived
percentage equal to NaN counts as missing, infinities do not. -/
def rowHasNA (r : Row) : Bool :=
  r.user.isNone || r.queue.isNone || r.jobName.isNone ||
  r.jobStart.isNone || r.jobEnd.isNone ||
  r.reqMem.isNone || r.usedMem.isNone || r.elapsed.isNone ||
  r.elapsedH.isNone || r.avgCpu.isNone ||
  (match r.derived with
   | some (_, p) => pdIsNan p
   | none => false)

/-- The worker-name test of line 174 applied to one row (regex search over
the job name; a missing name reads as the empty string, though the source
only evaluates this after dropping rows with a missing `Job Name`). -/
def nameMatch (worker : String) (r : Row) : Bool :=
  reSearch worker (r.jobName.getD "")

/-- Embedding of the derived-column assignment of lines 201-206:
`Unused Mem = Req Mem - Used Mem` and
`Unused Mem (%) = Unused Mem / Req Mem * 100.0`.  The `getD 0` defaults are
never exercised by the pipeline, which derives only after `dropna()`. -/
def deriveRow (r : Row) : Row :=
  let req := r.reqMem.getD 0
  let used := r.usedMem.getD 0
  { r with derived := some (req - used, pctOf req used) }

/-- Embedding of the row-selection part of `JobsSummary._read_all_jobs`
(report_generator.py lines 169-206), applied sequentially as in the source:
drop rows with a missing `Job Name` (line 169); unless the worker pattern
is `"all"`, keep rows whose name matches the pattern under
`str.contains`'s regex semantics (lines 171-178); drop rows whose `Queue`
is `"economy"` (line 184); drop rows with any missing value (line 186); the
`astype` float coercion of lines 188-193 is the identity here because the
numeric columns are already rationals; finally add the two derived columns
(lines 201-206). -/
def jobFilterRows (worker : String) (rows : List Row) : List Row :=
  let s1 := rows.filter (fun r => r.jobName.isSome)
  let s2 := if worker = "all" then s1 else s1.filter (nameMatch worker)
  let s3 := s2.filter (fun r => !(r.queue == some "economy"))
  let s4 := s3.filter (fun r => !(rowHasNA r))
  s4.map deriveRow

/-- Outcome of the full filter stage: the source calls `sys.exit()` when no
rows survive (lines 196-199). -/
inductive FilterOutcome where
  | exit
  | ok (rows : List Row)
deriving DecidableEq, Repr

/-- The filter stage including the empty-result `sys.exit()` of
lines 196-199. -/
def jobFilter (worker : String) (rows : List Row) : FilterOutcome :=
  let out := jobFilterRows worker rows
  if out.isEmpty then .exit else .ok out

/-- The single predicate equivalent to the four sequential row filters of
`jobFilterRows` (used to reason about the pipeline in one pass). -/
def keepRow (worker : String) (r : Row) : Bool :=
  r.jobName.isSome && (worker == "all" || nameMatch worker r) &&
  !(r.queue == some "economy") && !(rowHasNA r)

/-- A complete row whose requested memory is zero (and used memory zero):
the job for which the utilization percentage is mathematically undefined. -/
def rowZeroReq : Row :=
  { user := some "u1", queue := some "regular",
    jobName := some "dask-worker.0",
    jobStart := some 0, jobEnd := some 3600,
    reqMem := some 0, usedMem := some 0,
    elapsed := some 1, elapsedH := some 1, avgCpu := some 50,
    derived := none }

/-- A complete well-behaved row: 16 GB requested, 4 GB used. -/
def rowGood : Row :=
  { user := some "u2", queue := some "regular",
    jobName := some "dask-worker.1",
    jobStart := some 0, jobEnd := some 3600,
    reqMem := some 16, usedMem := some 4,
    elapsed := some 1, elapsedH := some 1, avgCpu := some 50,
    derived := none }

/-- A complete row whose job name is `das-worker`: it does not contain the
pattern `dask*` as a literal substring, but `re.search("dask*", ...)` finds
`das` followed by zero copies of `k`. -/
def rowDas : Row :=
  { user := some "u3", queue := some "regular",
    jobName := some "das-worker",
    jobStart := some 0, jobEnd := some 3600,
    reqMem := some 8, usedMem := some 2,
    elapsed := some 1, elapsedH := some 1, avgCpu := some 50,
    derived := none }

/-- `rowZeroReq` as the filter emits it: the unguarded division has put a
NaN percentage in the derived columns. -/
def rowZeroReqF : Row := { rowZeroReq with derived := some (0, PdFloat.nan) }

/-- `rowGood` as the filter emits it: 12 GB unused, 75 percent unused. -/
def rowGoodF : Row := { rowGood with derived := some (12, PdFloat.fin 75) }

/-
The statistics engine: `compute_summary_stats` (report_generator.py
lines 9-46) and `bin_summary` (lines 49-86).
-/

/-- Walk the consecutive boundary pairs looking for the first interval
`[b1, b2)` containing `v`, carrying the index reached so far. -/
def cutGo (v : ℚ) : List ℚ → ℕ → Option ℕ
  | b1 :: b2 :: rest, i =>
    if b1 ≤ v ∧ v < b2 then some i else cutGo v (b2 :: rest) (i + 1)
  | _, _ => none

/-- Embedding of the per-value bucket assignment of
`pd.cut(x, bins=bins, include_lowest=True, right=False, labels=labels)`
(bin_summary, lines 71-73): with `right=False` every interval is
left-closed/right-open, so a value equal to the last boundary (and any
value outside `[bins[0], bins[-1])`) is assigned to no bucket (`none`,
pandas NaN); `include_lowest` has no effect when `right=False` because the
first interval already contains its left edge.  The result is the index of
the bucket, i.e. the position of its label. -/
def cutAssign (bins : List ℚ) (v : ℚ) : Option ℕ := cutGo v bins 0

/-- How many values fall in bucket `i`. -/
def bucketCount (bins : List ℚ) (vals : List ℚ) (i : ℕ) : ℕ :=
  vals.countP (fun v => cutAssign bins v == some i)

/-- How many values fall in any bucket (the non-NaN entries of the `bin`
column, which is what `value_counts` normalizes by). -/
def inRangeCount (bins : List ℚ) (vals : List ℚ) : ℕ :=
  vals.countP (fun v => (cutAssign bins v).isSome)

/-- Embedding of the percentage series printed by `bin_summary`
(lines 76-86): `value_counts(normalize=True) * 100` divides each bucket's
count by the number of non-missing (in-range) assignments — not by the
number of rows — and `sort_index(ascending=False)` lists buckets by
descending index (highest bucket first).  When no value is in range pandas
would produce NaN entries (0/0); in this rational embedding that corner
yields 0, and no statement below depends on it. -/
def binPercentages (bins : List ℚ) (vals : List ℚ) : List ℚ :=
  ((List.range (bins.length - 1)).reverse).map
    (fun i => (bucketCount bins vals i : ℚ) / (inRangeCount bins vals) * 100)

/-- The slice of a DataFrame that `bin_summary` touches: the selected
field's column and the `bin` column it writes (absent before the first
call). -/
@[ext]
structure BinTable where
  values : List ℚ
  binCol : Option (List (Option ℕ))
deriving DecidableEq, Repr

/-- Embedding of `bin_summary` (lines 49-86): `df["bin"] = pd.cut(...)`
writes the computed bin column onto the *input* frame, and the function
then prints the percentage series; it returns the mutated frame and that
series.  The labels only name the buckets, so the numeric content depends
only on `bins`. -/
def bin_summary (t : BinTable) (bins : List ℚ) : BinTable × List ℚ :=
  ({ values := t.values, binCol := some (t.values.map (cutAssign bins)) },
   binPercentages bins t.values)

/-- The four statistics `compute_summary_stats` extracts from
`describe()`; `none` models pandas NaN. -/
structure SummaryStats where
  mean : Option ℚ
  median : Option ℚ
  minV : Option ℚ
  maxV : Option ℚ
deriving DecidableEq, Repr

/-- The non-missing entries of a column, in order. -/
def nonMissing (col : List (Option ℚ)) : List ℚ :=
  col.filterMap id

/-- Arithmetic mean of a list (0 on the empty list, unused there). -/
def listMean (l : List ℚ) : ℚ :=
  l.sum / l.length

/-- Median with linear interpolation (the `50%` row of `describe()`): the
middle element of the sorted list, or the average of the two middle
elements. -/
def medianOf (l : List ℚ) : ℚ :=
  let s := List.insertionSort (· ≤ ·) l
  let n := s.length
  if n % 2 = 1 then s.getD (n / 2) 0
  else (s.getD (n / 2 - 1) 0 + s.getD (n / 2) 0) / 2

/-- Embedding of `compute_summary_stats` (lines 9-46): `describe()`
computes count/mean/50%/min/max over the non-missing entries of the
column; on an empty or all-missing numeric column every statistic is NaN
(`none` here) and no exception is raised. -/
def compute_summary_stats (col : List (Option ℚ)) : SummaryStats :=
  let v := nonMissing col
  { mean := if v.isEmpty then none else some (listMean v)
  , median := if v.isEmpty then none else some (medianOf v)
  , minV := v.min?
  , maxV := v.max? }

/-
The aggregation reporter: `JobsSummary.dask_csg_report`
(report_generator.py lines 299-347).
-/

/-- One row of the already-filtered table as `dask_csg_report` reads it —
the columns `User`, `Req Mem`, `Unused Mem`, `Unused Mem (%)` and
`Elapsed (h)`.  Entries are finite rationals: the report is modelled over
tables whose derived percentage is finite. -/
structure FJob where
  user : String
  reqMem : ℚ
  unusedMem : ℚ
  unusedMemPct : ℚ
  elapsedH : ℚ
deriving DecidableEq, Repr

/-- The rows of one user's group (`groupby("User")`). -/
def groupRows (l : List FJob) (u : String) : List FJob :=
  l.filter (fun r => r.user == u)

/-- One row of the aggregated per-user report. -/
structure UserAgg where
  user : String
  reqMemMean : ℚ
  unusedMemMean : ℚ
  pctMean : ℚ
  elapsedMean : ℚ
  jobCount : ℕ
  unusedCoreHours : ℚ
deriving DecidableEq, Repr

/-- The `agg`/`size` step of `dask_csg_report` (lines 311-323): per-user
means of the four numeric columns plus the group size (the column the
source first names `Job ID` and then renames to `Dask Job Count`); the
metric column is added later, so it starts at 0. -/
def aggFor (l : List FJob) (u : String) : UserAgg :=
  { user := u
  , reqMemMean := listMean ((groupRows l u).map (·.reqMem))
  , unusedMemMean := listMean ((groupRows l u).map (·.unusedMem))
  , pctMean := listMean ((groupRows l u).map (·.unusedMemPct))
  , elapsedMean := listMean ((groupRows l u).map (·.elapsedH))
  , jobCount := (groupRows l u).length
  , unusedCoreHours := 0 }

/-- Lines 329-331:
`Unused Core-Hour (GB.hr) = Unused Mem * Elapsed (h) * Job ID`. -/
def addMetric (a : UserAgg) : UserAgg :=
  { a with
    unusedCoreHours := a.unusedMemMean * a.elapsedMean * (a.jobCount : ℚ) }

/-- Descending order on the metric column
(`sort_values(by=["Unused Core-Hour (GB.hr)"], ascending=False)`). -/
def metricGE (a b : UserAgg) : Prop :=
  b.unusedCoreHours ≤ a.unusedCoreHours

instance : DecidableRel metricGE :=
  fun _ _ => inferInstanceAs (Decidable (_ ≤ _))

instance : IsTotal UserAgg metricGE :=
  ⟨fun a b => le_total b.unusedCoreHours a.unusedCoreHours⟩

instance : IsTrans UserAgg metricGE :=
  ⟨fun _ _ _ h1 h2 => le_trans h2 h1⟩

/-- The distinct user names in ascending order (pandas `groupby` sorts the
group keys). -/
def sortedUsers (l : List FJob) : List String :=
  (List.insertionSort (· ≤ ·) (l.map (·.user))).dedup

/-- Embedding of `JobsSummary.dask_csg_report` (lines 299-347): group the
filtered jobs by user and aggregate (lines 311-323); keep the users whose
mean `Unused Mem (%)` is `>= 0` (line 326); add the unused core-hour
metric (lines 329-331); sort descending by it (lines 338-342).  The
rendering and the CSV write are not modelled; the returned list is the
ranked table. -/
def dask_csg_report (l : List FJob) : List UserAgg :=
  let aggs := (sortedUsers l).map (aggFor l)
  let kept := aggs.filter (fun a => decide (0 ≤ a.pctMean))
  let final := kept.map addMetric
  List.insertionSort metricGE final

/-- A filtered table with two users: `A` has three jobs at 90 percent mean
unused memory, `B` has two jobs at −5 percent. -/
def csgJobs : List FJob :=
  [{ user := "A", reqMem := 10, unusedMem := 9, unusedMemPct := 90,
     elapsedH := 1 },
   { user := "A", reqMem := 10, unusedMem := 9, unusedMemPct := 90,
     elapsedH := 2 },
   { user := "A", reqMem := 10, unusedMem := 9, unusedMemPct := 90,
     elapsedH := 3 },
   { user := "B", reqMem := 10, unusedMem := -1, unusedMemPct := -5,
     elapsedH := 1 },
   { user := "B", reqMem := 10, unusedMem := -1, unusedMemPct := -5,
     elapsedH := 2 }]

/-
The ingestion stage: `JobsSummary.__init__` / `JobsSummary._read_all_jobs`
(report_generator.py lines 97-150) up to the point where the parsed table
exists.  The typed filtering that follows is modelled by `jobFilterRows`
above.
-/

/-- Split a character list at commas, carrying the current field. -/
def splitCommaGo : List Char → List Char → List (List Char)
  | acc, [] => [acc.reverse]
  | acc, c :: cs =>
    if c = ',' then acc.reverse :: splitCommaGo [] cs
    else splitCommaGo (c :: acc) cs

/-- Split one CSV line into its fields. -/
def splitComma (s : String) : List String :=
  (splitCommaGo [] s.toList).map (fun l => String.mk l)

/-- Core of `pd.read_csv` on the joined lines: the first line is the
header; blank lines are skipped; the expected field count is fixed by the
first data row — when that row has more fields than the header, pandas
uses the leading extra fields of every row as an implicit index (modelled
by dropping them from each row) — and any later row with more fields than
expected raises a tokenizing error.  Rows with fewer fields than expected
are padded with missing values downstream (rows shorter than an inferred
index width do not occur in the inputs any statement exercises). -/
def csvParse (lines : List String) :
    Except String (List String × List (List String)) :=
  match lines with
  | [] => .error "EmptyDataError: No columns to parse from file"
  | header :: rest =>
    let hs := splitComma header
    let dataLines := rest.filter (fun l => !(l.isEmpty))
    let rows := dataLines.map splitComma
    let expected := max hs.length ((rows.headD []).length)
    if rows.any (fun r => expected < r.length) then
      .error "ParserError: Error tokenizing data"
    else
      .ok (hs, rows.map (fun r => r.drop (expected - hs.length)))

/-- The `na_values='-'` sentinel: a `-` cell is a missing value. -/
def naCell (c : String) : Option String :=
  if c = "-" then none else some c

/-- The guarded read of lines 141-150 (`na_values='-'`,
`parse_dates=['Job Start', 'Job End']`): on top of `csvParse`, naming a
parse-dates column absent from the header raises (caught by the
`except`). -/
def csvParseDates (lines : List String) :
    Except String (List String × List (List (Option String))) :=
  match csvParse lines with
  | .error e => .error e
  | .ok (hs, rows) =>
    if "Job Start" ∈ hs ∧ "Job End" ∈ hs then
      .ok (hs, rows.map (fun r => r.map naCell))
    else .error "ValueError: Missing column provided to parse_dates"

/-- The marker phrase of line 125. -/
def noJobsMarker : String := "No jobs found matching search criteria"

/-- The noise-banner path of line 134. -/
def bannerStart : String := "/glade/u/apps/opt/"

/-- Line 125: whether the raw text contains the marker phrase.  The file
content is modelled as its list of lines; the marker holds no newline, so
it occurs in the content exactly when it occurs in some line. -/
def markerPresent (lines : List String) : Bool :=
  lines.any (fun ln => hasSub ln.toList noJobsMarker.toList)

/-- Lines 133-136: if the first line starts with the installation-path
banner, drop the first two lines. -/
def stripBanner (lines : List String) : List String :=
  match lines with
  | [] => []
  | l :: _ =>
    if leadMatch bannerStart.toList l.toList then lines.drop 2 else lines

/-- How a run of `_read_all_jobs` can end, up to the parsed table:
`warnNotFound` and `warnNoJobs` are the early warn-and-return paths of
lines 117-127; `crash` is an exception escaping the method uncaught;
`warnCsv` is the caught warn-and-return of lines 148-150; `warnEmptyTable`
is the zero-row warn-and-return of lines 161-163; `ok` carries the parsed
header and rows. -/
inductive IngestOutcome where
  | warnNotFound
  | warnNoJobs
  | crash (msg : String)
  | warnCsv (msg : String)
  | warnEmptyTable
  | ok (header : List String) (rows : List (List (Option String)))
deriving DecidableEq, Repr

/-- Embedding of `_read_all_jobs` (lines 109-163) up to the parsed table.
`input` is `none` when the file does not exist.  Crucially, line 138 runs
`df = pd.read_csv(io.StringIO(...))` *outside* the `try` block (its result
`df` is never used), so a malformed CSV raises there, uncaught — before the
guarded read of lines 141-150 gets a chance to catch it.  The timestamp
subtraction of line 155 (also outside any `try`) and the typed filtering
are modelled separately. -/
def readAllJobs (input : Option (List String)) : IngestOutcome :=
  match input with
  | none => .warnNotFound
  | some lines =>
    if markerPresent lines then .warnNoJobs
    else
      let lines2 := stripBanner lines
      match csvParse lines2 with
      | .error e => .crash e
      | .ok _ =>
        match csvParseDates lines2 with
        | .error e => .warnCsv e
        | .ok (hs, rows) =>
          if rows.isEmpty then .warnEmptyTable
          else .ok hs rows

/-- The `dask_jobs` attribute after `__init__`: the source assigns it only
at line 235, after every early `return`, so every non-`ok` outcome leaves
the attribute unset (`none`).  (On the `ok` path the filter stage may
still `sys.exit()` before the assignment, but then the process is gone and
no later method call exists; that path is outside this definition's
use.) -/
def dask_jobs_attr (o : IngestOutcome) :
    Option (List String × List (List (Option String))) :=
  match o with
  | .ok h r => some (h, r)
  | _ => none

/-- `JobsSummary.dask_user_report` (line 250 and onwards) starts by reading
`self.dask_jobs`; Python raises `AttributeError` when the attribute was
never assigned.  Only that attribute access is modelled. -/
def dask_user_report
    (dj : Option (List String × List (List (Option String)))) :
    Except String Unit :=
  match dj with
  | none => .error "AttributeError"
  | some _ => .ok ()

/-- `JobsSummary.dask_csg_report` (line 311) likewise starts by reading
`self.dask_jobs`.  Only the attribute access is modelled here; the
aggregation itself is `dask_csg_report` above. -/
def dask_csg_report_run
    (dj : Option (List String × List (List (Option String)))) :
    Except String Unit :=
  match dj with
  | none => .error "AttributeError"
  | some _ => .ok ()

/-- The filter pipeline on the empty table is empty. -/
theorem jobFilterRows_nil (w : String) : jobFilterRows w [] = [] := by
  unfold jobFilterRows
  split <;> simp

/-- One-step evaluation of the filter pipeline on a cons cell. -/
theorem jobFilterRows_cons (w : String) (r : Row) (rows : List Row) :
    jobFilterRows w (r :: rows) =
      if keepRow w r then deriveRow r :: jobFilterRows w rows
      else jobFilterRows w rows := by
  unfold jobFilterRows
  by_cases hw : w = "all"
  · simp only [if_pos hw]
    have hw2 : (w == "all") = true := by simpa using hw
    by_cases h1 : r.jobName.isSome <;>
      by_cases h3 : (r.queue == some "economy") <;>
      by_cases h4 : rowHasNA r <;>
        simp [keepRow, hw2, h1, h3, h4, List.filter_cons]
  · simp only [if_neg hw]
    have hw2 : (w == "all") = false := by simpa using hw
    by_cases h1 : r.jobName.isSome <;>
      by_cases h2 : nameMatch w r <;>
      by_cases h3 : (r.queue == some "economy") <;>
      by_cases h4 : rowHasNA r <;>
        simp [keepRow, hw2, h1, h2, h3, h4, List.filter_cons]

/-- The four sequential row filters of `jobFilterRows` fuse into a single
pass with the conjoined predicate `keepRow`. -/
theorem jobFilterRows_eq (w : String) (rows : List Row) :
    jobFilterRows w rows = (rows.filter (keepRow w)).map deriveRow := by
  induction rows with
  | nil => simp [jobFilterRows_nil]
  | cons r rows ih =>
    rw [jobFilterRows_cons, List.filter_cons]
    by_cases h : keepRow w r <;> simp [h, ih]

/-- Membership in the filtered table: exactly the input rows passing
`keepRow`, with the derived columns added. -/
theorem mem_jobFilterRows (w : String) (rows : List Row) (r' : Row) :
    r' ∈ jobFilterRows w rows ↔
      ∃ r ∈ rows, keepRow w r = true ∧ r' = deriveRow r := by
  simp only [jobFilterRows_eq, List.mem_map, List.mem_filter]
  constructor
  · rintro ⟨r, ⟨hr, hk⟩, rfl⟩
    exact ⟨r, hr, hk, rfl⟩
  · rintro ⟨r, hr, hk, rfl⟩
    exact ⟨r, ⟨hr, hk⟩, rfl⟩

/-- `matchElems` on a pattern of unquantified literal atoms is
initial-segment matching. -/
theorem matchElems_lits (ps : List Char) :
    ∀ l : List Char,
      matchElems (ps.map (fun c => RElem.once (RAtom.lit c))) l =
        leadMatch ps l := by
  induction ps with
  | nil => intro l; simp [matchElems, leadMatch]
  | cons p ps ih =>
    intro l
    cases l with
    | nil => simp [matchElems, leadMatch]
    | cons x xs => simp [matchElems, matchAtom, leadMatch, ih]

/-- A pattern containing no regex metacharacter parses to a list of
unquantified literal atoms. -/
theorem parsePat_noMeta :
    ∀ s : List Char, (∀ c ∈ s, isMetaChar c = false) →
      parsePat s = s.map (fun c => RElem.once (RAtom.lit c)) := by
  intro s
  induction s with
  | nil => intro _; simp [parsePat]
  | cons c rest ih =>
    intro h
    have hc : isMetaChar c = false := h c (by simp)
    have hcd : ¬(c = '.') := by
      intro hh
      subst hh
      exact absurd hc (by decide)
    cases rest with
    | nil => simp [parsePat, parseAtom, hcd]
    | cons d rest2 =>
      have hd : isMetaChar d = false := h d (by simp)
      have hd1 : ¬(d = '*') := by
        intro hh
        subst hh
        exact absurd hd (by decide)
      have hd2 : ¬(d = '+') := by
        intro hh
        subst hh
        exact absurd hd (by decide)
      have hd3 : ¬(d = '?') := by
        intro hh
        subst hh
        exact absurd hd (by decide)
      have h2 : ∀ x ∈ d :: rest2, isMetaChar x = false := by
        intro x hx
        exact h x (List.mem_cons_of_mem _ hx)
      rw [parsePat, if_neg hd1, if_neg hd2, if_neg hd3, ih h2]
      simp [parseAtom, hcd]

/-- Searching with unquantified literal atoms only is literal substring
containment. -/
theorem searchFrom_lits (ps : List Char) :
    ∀ hay : List Char,
      searchFrom (ps.map (fun c => RElem.once (RAtom.lit c))) hay =
        hasSub hay ps := by
  intro hay
  induction hay with
  | nil => simp [searchFrom, hasSub, matchElems_lits]
  | cons x xs ih => simp [searchFrom, hasSub, matchElems_lits, ih]

/-- For a pattern containing no regex metacharacter at all, the regex
search of `str.contains` coincides with literal substring containment.
(A metacharacter-free pattern is trivially inside the fragment.) -/
theorem reSearch_eq_lit_of_noMeta (pat hay : String)
    (h : ∀ c ∈ pat.toList, isMetaChar c = false) :
    reSearch pat hay = strContainsLit hay pat := by
  unfold reSearch strContainsLit
  rw [parsePat_noMeta _ h, searchFrom_lits]

/-- The derived percentage is NaN exactly for a zero-requested,
zero-used row. -/
theorem pctOf_eq_nan_iff (req used : ℚ) :
    pctOf req used = .nan ↔ req = 0 ∧ used = 0 := by
  unfold pctOf
  by_cases h : req = 0
  · subst h
    rw [if_pos (show (0:ℚ) = 0 from rfl)]
    constructor
    · intro hp
      split_ifs at hp with h1 h2
      all_goals
        first
          | simpa using hp
          | exact ⟨rfl, by linarith⟩
    · rintro ⟨-, rfl⟩
      norm_num
  · constructor
    · intro hp
      rw [if_neg h] at hp
      exact absurd hp (by simp)
    · rintro ⟨h0, -⟩
      exact absurd h0 h

/-- `pdIsNan` is false exactly away from NaN. -/
theorem pdIsNan_eq_false_iff (p : PdFloat) : pdIsNan p = false ↔ p ≠ .nan := by
  cases p <;> simp [pdIsNan]

/-- Mapping a function that fixes every element of a list is the
identity. -/
theorem listMapSelf {α : Type} (f : α → α) (l : List α)
    (h : ∀ x ∈ l, f x = x) : l.map f = l := by
  induction l with
  | nil => rfl
  | cons x xs ih =>
    rw [List.map_cons, h x (by simp), ih (fun y hy => h y (by simp [hy]))]

/-- Adding the derived columns changes no other column. -/
@[simp]
theorem deriveRow_user (r : Row) : (deriveRow r).user = r.user := rfl

@[simp]
theorem deriveRow_queue (r : Row) : (deriveRow r).queue = r.queue := rfl

@[simp]
theorem deriveRow_jobName (r : Row) : (deriveRow r).jobName = r.jobName := rfl

@[simp]
theorem deriveRow_jobStart (r : Row) : (deriveRow r).jobStart = r.jobStart := rfl

@[simp]
theorem deriveRow_jobEnd (r : Row) : (deriveRow r).jobEnd = r.jobEnd := rfl

@[simp]
theorem deriveRow_reqMem (r : Row) : (deriveRow r).reqMem = r.reqMem := rfl

@[simp]
theorem deriveRow_usedMem (r : Row) : (deriveRow r).usedMem = r.usedMem := rfl

@[simp]
theorem deriveRow_elapsed (r : Row) : (deriveRow r).elapsed = r.elapsed := rfl

@[simp]
theorem deriveRow_elapsedH (r : Row) : (deriveRow r).elapsedH = r.elapsedH := rfl

@[simp]
theorem deriveRow_avgCpu (r : Row) : (deriveRow r).avgCpu = r.avgCpu := rfl

@[simp]
theorem deriveRow_derived (r : Row) :
    (deriveRow r).derived =
      some (r.reqMem.getD 0 - r.usedMem.getD 0,
        pctOf (r.reqMem.getD 0) (r.usedMem.getD 0)) := rfl

/-- Recomputing the derived columns on an already-derived row is the
identity: the inputs of the computation are untouched by it. -/
theorem deriveRow_idem (r : Row) : deriveRow (deriveRow r) = deriveRow r := by
  unfold deriveRow
  simp

/-- The worker-name test does not see the derived columns. -/
@[simp]
theorem nameMatch_deriveRow (w : String) (r : Row) :
    nameMatch w (deriveRow r) = nameMatch w r := rfl

/-- Unpacking `dropna`: a row with no missing value has every modelled
column present and a non-NaN derived percentage (when derived columns
exist). -/
theorem rowHasNA_eq_false_parts (r : Row) (h : rowHasNA r = false) :
    r.user.isNone = false ∧ r.queue.isNone = false ∧ r.jobName.isNone = false ∧
    r.jobStart.isNone = false ∧ r.jobEnd.isNone = false ∧
    r.reqMem.isNone = false ∧ r.usedMem.isNone = false ∧
    r.elapsed.isNone = false ∧ r.elapsedH.isNone = false ∧
    r.avgCpu.isNone = false ∧
    (match r.derived with
      | some (_, p) => pdIsNan p
      | none => false) = false := by
  unfold rowHasNA at h
  simp only [Bool.or_eq_false_iff] at h
  tauto

/-- A complete row stays complete after the derived columns are
recomputed, provided the recomputed percentage is not NaN. -/
theorem rowHasNA_deriveRow_eq_false (r : Row) (hna : rowHasNA r = false)
    (hp : pdIsNan (pctOf (r.reqMem.getD 0) (r.usedMem.getD 0)) = false) :
    rowHasNA (deriveRow r) = false := by
  have parts := rowHasNA_eq_false_parts r hna
  unfold rowHasNA
  simp only [deriveRow_user, deriveRow_queue, deriveRow_jobName,
    deriveRow_jobStart, deriveRow_jobEnd, deriveRow_reqMem,
    deriveRow_usedMem, deriveRow_elapsed, deriveRow_elapsedH,
    deriveRow_avgCpu, deriveRow_derived]
  simp only [Bool.or_eq_false_iff]
  refine ⟨⟨⟨⟨⟨⟨⟨⟨⟨⟨?_, ?_⟩, ?_⟩, ?_⟩, ?_⟩, ?_⟩, ?_⟩, ?_⟩, ?_⟩, ?_⟩, ?_⟩
  · exact parts.1
  · exact parts.2.1
  · exact parts.2.2.1
  · exact parts.2.2.2.1
  · exact parts.2.2.2.2.1
  · exact parts.2.2.2.2.2.1
  · exact parts.2.2.2.2.2.2.1
  · exact parts.2.2.2.2.2.2.2.1
  · exact parts.2.2.2.2.2.2.2.2.1
  · exact parts.2.2.2.2.2.2.2.2.2.1
  · exact hp

/-- A kept row is still kept after its derived columns are recomputed,
provided the recomputed percentage is not NaN. -/
theorem keepRow_deriveRow (w : String) (r : Row)
    (hk : keepRow w r = true)
    (hp : pdIsNan (pctOf (r.reqMem.getD 0) (r.usedMem.getD 0)) = false) :
    keepRow w (deriveRow r) = true := by
  unfold keepRow at hk ⊢
  simp only [deriveRow_jobName, nameMatch_deriveRow, deriveRow_queue]
  simp only [Bool.and_eq_true, Bool.not_eq_true'] at hk ⊢
  have hna : rowHasNA r = false := hk.2
  exact ⟨⟨⟨hk.1.1.1, hk.1.1.2⟩, hk.1.2⟩, rowHasNA_deriveRow_eq_false r hna hp⟩

/-- Every row surviving the filter passes the filter's predicate again and
is fixed by recomputation of the derived columns, provided it is not a
zero-requested/zero-used row. -/
theorem jobFilterRows_invariant (w : String) (S : List Row)
    (h : ∀ r ∈ jobFilterRows w S, ¬(r.reqMem = some 0 ∧ r.usedMem = some 0)) :
    ∀ r' ∈ jobFilterRows w S, keepRow w r' = true ∧ deriveRow r' = r' := by
  intro r' hr'
  obtain ⟨r, hrS, hk, rfl⟩ := (mem_jobFilterRows w S r').mp hr'
  have hna : rowHasNA r = false := by
    unfold keepRow at hk
    simp only [Bool.and_eq_true, Bool.not_eq_true'] at hk
    exact hk.2
  have parts := rowHasNA_eq_false_parts r hna
  obtain ⟨q, hq⟩ : ∃ q, r.reqMem = some q := by
    cases hqq : r.reqMem with
    | none => rw [hqq] at parts; simp at parts
    | some q => exact ⟨q, rfl⟩
  obtain ⟨u, hu⟩ : ∃ u, r.usedMem = some u := by
    cases huu : r.usedMem with
    | none => rw [huu] at parts; simp at parts
    | some u => exact ⟨u, rfl⟩
  have hcond := h (deriveRow r) hr'
  simp only [deriveRow_reqMem, deriveRow_usedMem, hq, hu,
    Option.some.injEq] at hcond
  push_neg at hcond
  have hp : pdIsNan (pctOf (r.reqMem.getD 0) (r.usedMem.getD 0)) = false := by
    rw [hq, hu]
    simp only [Option.getD_some]
    rw [pdIsNan_eq_false_iff]
    intro hnan
    rw [pctOf_eq_nan_iff] at hnan
    exact hcond hnan.1 hnan.2
  exact ⟨keepRow_deriveRow w r hk hp, deriveRow_idem r⟩

/-- Evaluating the filter on the singleton good table. -/
theorem filter_good_eval : jobFilterRows "dask" [rowGood] = [rowGoodF] := by
  have m1 : reSearch "dask" "dask-worker.1" = true := by decide
  have hq : ("regular" : String) ≠ "economy" := by decide
  rw [jobFilterRows_cons, jobFilterRows_nil]
  norm_num [keepRow, rowGood, rowGoodF, deriveRow, pctOf, nameMatch,
    rowHasNA, m1, hq]

/-- Evaluating the filter on the two-row table whose first row requests
zero memory. -/
theorem filter_pair_eval :
    jobFilterRows "dask" [rowZeroReq, rowGood] = [rowZeroReqF, rowGoodF] := by
  have m0 : reSearch "dask" "dask-worker.0" = true := by decide
  have m1 : reSearch "dask" "dask-worker.1" = true := by decide
  have hq : ("regular" : String) ≠ "economy" := by decide
  rw [jobFilterRows_cons, jobFilterRows_cons, jobFilterRows_nil]
  norm_num [keepRow, rowZeroReq, rowGood, rowZeroReqF, rowGoodF, deriveRow,
    pctOf, nameMatch, rowHasNA, m0, m1, hq]

/-- C1: the code does not guard the division `Unused Mem / Req Mem * 100`.
A filtered row with requested memory 0 (and used memory 0) is retained with
a NaN percentage in the table handed to the reports — no
`DivisionByZeroError` or any other error is produced for it — while a row
with positive requested memory gets its finite percentage (16 GB requested,
4 GB used gives 75 percent unused). -/
theorem c1_zero_reqmem_flows_nan :
    jobFilterRows "dask" [rowZeroReq, rowGood] =
      [{ rowZeroReq with derived := some (0, PdFloat.nan) },
       { rowGood with derived := some (12, PdFloat.fin 75) }] ∧
    rowZeroReq.reqMem = some 0 := by
  constructor
  · exact filter_pair_eval
  · rfl

/-- C2 counterexample: with the CLI default pattern `dask*`, the filter
keeps a row named `das-worker` although `dask*` is not a literal substring
of that name — `str.contains` interprets `*` as a regex Kleene star, not as
an ordinary character. -/
theorem c2_counterexample :
    jobFilterRows "dask*" [rowDas] = [deriveRow rowDas] ∧
    strContainsLit "das-worker" "dask*" = false := by
  constructor
  · rw [jobFilterRows_cons, jobFilterRows_nil]
    have k : keepRow "dask*" rowDas = true := by decide
    simp [k]
  · decide

/-- C2 (amended): the filter's name test is pandas `str.contains` with its
`regex=True` default, i.e. Python `re.search`, not a literal substring
test.  Concretely: membership in the filtered table is governed by
`keepRow` (whose name test is `reSearch`) for every pattern; for a pattern
other than `all` inside the modelled fragment (`modelPat`, where
`reSearch` is faithful to `re.search`) every kept row's name matches the
pattern as a regex; for the pattern `all` no name test is applied; and the
regex test coincides with case-sensitive literal substring containment
when the pattern contains no regex metacharacter at all — a pattern with a
metacharacter (such as the `*` of the CLI default, or a `.`) is a regex,
not a literal. -/
theorem c2_name_filter_regex_semantics :
    (∀ (w : String) (rows : List Row) (r' : Row),
        r' ∈ jobFilterRows w rows ↔
          ∃ r ∈ rows, keepRow w r = true ∧ r' = deriveRow r) ∧
    (∀ (w : String) (r : Row), w ≠ "all" → modelPat w.toList = true →
        keepRow w r = true → reSearch w (r.jobName.getD "") = true) ∧
    (∀ r : Row, keepRow "all" r =
        (r.jobName.isSome && !(r.queue == some "economy") && !(rowHasNA r))) ∧
    (∀ (pat hay : String), (∀ c ∈ pat.toList, isMetaChar c = false) →
        reSearch pat hay = strContainsLit hay pat) := by
  refine ⟨mem_jobFilterRows, ?_, ?_, reSearch_eq_lit_of_noMeta⟩
  · intro w r hw _ hk
    unfold keepRow at hk
    simp only [Bool.and_eq_true] at hk
    have hor := hk.1.1.2
    rcases Bool.or_eq_true_iff.mp hor with hall | hm
    · exact absurd (by simpa using hall) hw
    · exact hm
  · intro r
    unfold keepRow
    have hb : ("all" == "all") = true := rfl
    rw [hb]
    simp [Bool.and_assoc]

/-- C2 witness: the amended statement applied at concrete inputs — a
metacharacter-free pattern where regex search and literal containment
agree, and a kept row whose in-fragment pattern matches its name. -/
theorem c2_witness :
    reSearch "dask" "my-dask-worker" = strContainsLit "my-dask-worker" "dask" ∧
    reSearch "dask" (rowGood.jobName.getD "") = true :=
  ⟨c2_name_filter_regex_semantics.2.2.2 "dask" "my-dask-worker" (by decide),
   c2_name_filter_regex_semantics.2.1 "dask" rowGood (by decide) (by decide)
     (by decide)⟩

/-- C9 counterexample: the filter is not idempotent on its own output.  On
a table containing a zero-requested/zero-used row the first pass stores a
NaN percentage in that row; the second pass's `dropna()` then removes the
row, so filtering the output again changes it. -/
theorem c9_counterexample :
    jobFilterRows "dask" (jobFilterRows "dask" [rowZeroReq, rowGood]) ≠
      jobFilterRows "dask" [rowZeroReq, rowGood] := by
  rw [filter_pair_eval]
  have e2 : jobFilterRows "dask" [rowZeroReqF, rowGoodF] = [rowGoodF] := by
    have k1 : keepRow "dask" rowZeroReqF = false := by decide
    have k2 : keepRow "dask" rowGoodF = true := by decide
    rw [jobFilterRows_cons, jobFilterRows_cons, jobFilterRows_nil, k1, k2]
    norm_num [deriveRow, rowGoodF, rowGood, pctOf]
  rw [e2]
  decide

/-- C9 (amended): the filter is idempotent on every table whose filtered
rows avoid the zero-requested/zero-used (NaN-percentage) case: running it a
second time drops no row and recomputes identical derived columns. -/
theorem c9_filter_idempotent_no_nan (w : String) (S : List Row)
    (h : ∀ r ∈ jobFilterRows w S, ¬(r.reqMem = some 0 ∧ r.usedMem = some 0)) :
    jobFilterRows w (jobFilterRows w S) = jobFilterRows w S := by
  rw [jobFilterRows_eq w (jobFilterRows w S)]
  rw [List.filter_eq_self.mpr
    (fun r hr => (jobFilterRows_invariant w S h r hr).1)]
  exact listMapSelf _ _ (fun r hr => (jobFilterRows_invariant w S h r hr).2)

/-- C9 witness: idempotence at a concrete table with one well-behaved
row. -/
theorem c9_witness :
    jobFilterRows "dask" (jobFilterRows "dask" [rowGood]) =
      jobFilterRows "dask" [rowGood] := by
  apply c9_filter_idempotent_no_nan
  intro r hr
  rw [filter_good_eval] at hr
  simp only [List.mem_singleton] at hr
  subst hr
  decide

/-- Soundness of the interval walk: a returned index points at a boundary
pair bracketing the value. -/
theorem cutGo_some_bounds (v : ℚ) :
    ∀ (l : List ℚ) (s i : ℕ), cutGo v l s = some i →
      ∃ k, i = s + k ∧ k + 1 < l.length ∧
        l.getD k 0 ≤ v ∧ v < l.getD (k + 1) 0 := by
  intro l
  induction l with
  | nil => intro s i h; simp [cutGo] at h
  | cons b1 tl ih =>
    intro s i h
    cases tl with
    | nil => simp [cutGo] at h
    | cons b2 rest =>
      simp only [cutGo] at h
      split_ifs at h with hb
      · obtain rfl : s = i := by simpa using h
        refine ⟨0, by omega, by simp, ?_, ?_⟩
        · simpa using hb.1
        · simpa using hb.2
      · obtain ⟨k, hk1, hk2, hk3, hk4⟩ := ih (s + 1) i h
        refine ⟨k + 1, by omega, ?_, hk3, hk4⟩
        simp only [List.length_cons] at hk2 ⊢
        omega

/-- Strictly sorted boundaries are strictly monotone under `getD`. -/
theorem getD_mono_lt (l : List ℚ) (hp : l.Pairwise (· < ·)) {i j : ℕ}
    (hij : i < j) (hj : j < l.length) : l.getD i 0 < l.getD j 0 := by
  have hi : i < l.length := lt_trans hij hj
  rw [List.getD_eq_getElem l 0 hi, List.getD_eq_getElem l 0 hj]
  exact List.pairwise_iff_get.mp hp ⟨i, hi⟩ ⟨j, hj⟩ hij

/-- Strictly sorted boundaries are monotone under `getD`. -/
theorem getD_mono_le (l : List ℚ) (hp : l.Pairwise (· < ·)) {i j : ℕ}
    (hij : i ≤ j) (hj : j < l.length) : l.getD i 0 ≤ l.getD j 0 := by
  rcases eq_or_lt_of_le hij with rfl | h
  · exact le_refl _
  · exact le_of_lt (getD_mono_lt l hp h hj)

/-- Completeness of the interval walk on sorted boundaries: the walk finds
the (unique) bracketing pair. -/
theorem cutGo_at_index (v : ℚ) :
    ∀ (l : List ℚ) (s k : ℕ), l.Pairwise (· < ·) →
      k + 1 < l.length → l.getD k 0 ≤ v → v < l.getD (k + 1) 0 →
      cutGo v l s = some (s + k) := by
  intro l
  induction l with
  | nil => intro s k _ hk; simp at hk
  | cons b1 tl ih =>
    intro s k hp hk h1 h2
    cases tl with
    | nil => simp at hk
    | cons b2 rest =>
      cases k with
      | zero =>
        simp only [cutGo]
        rw [if_pos ⟨h1, h2⟩]
        rfl
      | succ k' =>
        have hb2 : b2 ≤ v := by
          have hmono := getD_mono_le (b1 :: b2 :: rest) hp
            (i := 1) (j := k' + 1) (by omega) (by omega)
          exact le_trans hmono h1
        simp only [cutGo]
        rw [if_neg (by intro hc; exact absurd hc.2 (not_lt.mpr hb2))]
        have hrec := ih (s + 1) k' (List.Pairwise.of_cons hp)
          (by simp only [List.length_cons] at hk ⊢; omega) h1 h2
        rw [hrec]
        congr 1
        omega

/-- On strictly sorted boundaries, `pd.cut` assigns index `k` exactly when
the value lies in the half-open interval from the `k`-th boundary to the
next. -/
theorem cutAssign_iff (bins : List ℚ) (v : ℚ)
    (hp : bins.Pairwise (· < ·)) (k : ℕ) :
    cutAssign bins v = some k ↔
      k + 1 < bins.length ∧ bins.getD k 0 ≤ v ∧ v < bins.getD (k + 1) 0 := by
  constructor
  · intro h
    obtain ⟨k', hk1, hk2, hk3, hk4⟩ := cutGo_some_bounds v bins 0 k h
    obtain rfl : k = k' := by omega
    exact ⟨hk2, hk3, hk4⟩
  · rintro ⟨h1, h2, h3⟩
    have := cutGo_at_index v bins 0 k hp h1 h2 h3
    simpa using this

/-- A boundary value lands in the bucket whose lower edge it is. -/
theorem cutAssign_boundary (bins : List ℚ) (hp : bins.Pairwise (· < ·))
    (j : ℕ) (hj : j + 1 < bins.length) :
    cutAssign bins (bins.getD j 0) = some j :=
  (cutAssign_iff bins _ hp j).mpr
    ⟨hj, le_refl _, getD_mono_lt bins hp (Nat.lt_succ_self j) hj⟩

/-- The topmost boundary value is assigned to no bucket (`right=False`
makes every interval right-open). -/
theorem cutAssign_last_none (bins : List ℚ) (hp : bins.Pairwise (· < ·)) :
    cutAssign bins (bins.getD (bins.length - 1) 0) = none := by
  cases h : cutAssign bins (bins.getD (bins.length - 1) 0) with
  | none => rfl
  | some k =>
    obtain ⟨k', hk1, hk2, hk3, hk4⟩ :=
      cutGo_some_bounds (bins.getD (bins.length - 1) 0) bins 0 k h
    have hle : bins.getD (k' + 1) 0 ≤ bins.getD (bins.length - 1) 0 :=
      getD_mono_le bins hp (by omega) (by omega)
    exact absurd (lt_of_lt_of_le hk4 hle) (lt_irrefl _)

/-- C5 counterexample: with boundaries `[0, 50, 100]` the value 100 — equal
to the last boundary — is assigned to no bucket at all (`right=False` makes
the last interval `[50, 100)`), so the last bucket does not include
`boundaries[-1]`; `bin_summary` records NaN in the `bin` column for such a
row. -/
theorem c5_counterexample :
    cutAssign [0, 50, 100] (100 : ℚ) = none ∧
    (bin_summary { values := [100], binCol := none } [0, 50, 100]).1.binCol =
      some [none] :=
  ⟨by decide, by decide⟩

/-- C5 (amended): on strictly increasing boundaries, a value is assigned to
bucket `k` exactly when it lies in the half-open interval
`[boundaries[k], boundaries[k+1])` (so assignment is unique); any boundary
value other than the last lands in the bucket whose lower edge it is — in
particular the first bucket contains `boundaries[0]` — but a value equal to
the last boundary is assigned to no bucket. -/
theorem c5_bucket_assignment (bins : List ℚ) (hp : bins.Pairwise (· < ·)) :
    (∀ (v : ℚ) (k : ℕ), cutAssign bins v = some k ↔
        k + 1 < bins.length ∧ bins.getD k 0 ≤ v ∧ v < bins.getD (k + 1) 0) ∧
    (∀ j : ℕ, j + 1 < bins.length →
        cutAssign bins (bins.getD j 0) = some j) ∧
    cutAssign bins (bins.getD (bins.length - 1) 0) = none :=
  ⟨fun v k => cutAssign_iff bins v hp k,
   fun j hj => cutAssign_boundary bins hp j hj,
   cutAssign_last_none bins hp⟩

/-- C5 witness: with boundaries `[0, 50, 100]`, the boundary value 50 goes
to the bucket with lower edge 50 (index 1) and 0 goes to the first
bucket. -/
theorem c5_witness :
    cutAssign [0, 50, 100] (50 : ℚ) = some 1 ∧
    cutAssign [0, 50, 100] (0 : ℚ) = some 0 :=
  ⟨(c5_bucket_assignment [0, 50, 100] (by decide)).2.1 1 (by decide),
   (c5_bucket_assignment [0, 50, 100] (by decide)).2.1 0 (by decide)⟩

/-- Sum of a pointwise sum of maps splits. -/
theorem listSumMapAdd (l : List ℕ) (f g : ℕ → ℕ) :
    (l.map (fun i => f i + g i)).sum = (l.map f).sum + (l.map g).sum := by
  induction l with
  | nil => rfl
  | cons a t ih =>
    simp only [List.map_cons, List.sum_cons, ih]
    omega

/-- Summing the indicator of one index over `range n`. -/
theorem sum_indicator_range (n j : ℕ) :
    ((List.range n).map (fun i => if j = i then (1 : ℕ) else 0)).sum =
      if j < n then 1 else 0 := by
  induction n with
  | zero => simp
  | succ n ih =>
    rw [List.range_succ, List.map_append, List.sum_append, ih]
    by_cases h : j < n
    · have h2 : j ≠ n := by omega
      have h3 : j < n + 1 := by omega
      simp [h, h2, h3]
    · by_cases h2 : j = n
      · subst h2
        simp [h]
      · have h3 : ¬j < n + 1 := by omega
        simp [h, h2, h3]

/-- The bucket counts add up to the number of in-range values: every
in-range value is assigned to exactly one bucket index below
`bins.length - 1`. -/
theorem bucketCount_sum (bins : List ℚ) (vals : List ℚ) :
    ((List.range (bins.length - 1)).map (bucketCount bins vals)).sum =
      inRangeCount bins vals := by
  induction vals with
  | nil =>
    have hz : ∀ i ∈ List.range (bins.length - 1),
        bucketCount bins [] i = 0 := by
      intro i _
      simp [bucketCount]
    rw [List.map_congr_left hz]
    simp [inRangeCount]
  | cons v vs ih =>
    have hcons : ∀ i ∈ List.range (bins.length - 1),
        bucketCount bins (v :: vs) i =
          bucketCount bins vs i +
            (if cutAssign bins v == some i then 1 else 0) := by
      intro i _
      simp [bucketCount, List.countP_cons]
    rw [List.map_congr_left hcons, listSumMapAdd, ih]
    have hin : inRangeCount bins (v :: vs) =
        inRangeCount bins vs +
          (if (cutAssign bins v).isSome then 1 else 0) := by
      simp [inRangeCount, List.countP_cons]
    rw [hin]
    congr 1
    cases hc : cutAssign bins v with
    | none =>
      have hz : ∀ i ∈ List.range (bins.length - 1),
          (if (none : Option ℕ) == some i then (1 : ℕ) else 0) = 0 := by
        intro i _
        rfl
      rw [List.map_congr_left hz]
      simp
    | some j =>
      have hj : j < bins.length - 1 := by
        obtain ⟨k, hk1, hk2, _, _⟩ := cutGo_some_bounds v bins 0 j hc
        omega
      have hb : ∀ i ∈ List.range (bins.length - 1),
          (if (some j == some i : Bool) then (1 : ℕ) else 0) =
            (if j = i then (1 : ℕ) else 0) := by
        intro i _
        by_cases h : j = i <;> simp [h]
      rw [List.map_congr_left hb, sum_indicator_range]
      simp [hj]

/-- Dividing each mapped count by a common denominator and scaling
commutes with summation. -/
theorem listSumMapDiv (l : List ℕ) (f : ℕ → ℕ) (T : ℚ) :
    (l.map (fun i => (f i : ℚ) / T * 100)).sum =
      ((l.map f).sum : ℚ) / T * 100 := by
  induction l with
  | nil => simp
  | cons a t ih =>
    simp only [List.map_cons, List.sum_cons, ih]
    push_cast
    ring

/-- As soon as one value is in range, the printed percentages sum to
exactly 100 — whatever number of values fell outside the boundaries. -/
theorem binPercentages_sum (bins vals : List ℚ)
    (h : 0 < inRangeCount bins vals) :
    (binPercentages bins vals).sum = 100 := by
  unfold binPercentages
  rw [List.map_reverse, List.sum_reverse, listSumMapDiv, bucketCount_sum]
  have hT : ((inRangeCount bins vals : ℚ)) ≠ 0 :=
    ne_of_gt (by exact_mod_cast h)
  field_simp

/-- C4 counterexample: on values `[25, 150]` with boundaries `[0, 50, 100]`
one value (150) is out of range; the code divides by the number of in-range
values (1), printing 0 percent for the upper bucket and 100 percent for the
lower — not `count / N * 100` (which would give 50 percent) — and the
percentages sum to 100, not to `(N - k) / N * 100 = 50`. -/
theorem c4_counterexample :
    binPercentages [0, 50, 100] [25, 150] = [0, 100] ∧
    ¬((100 : ℚ) = 1 / 2 * 100) := by
  constructor
  · have c1 : bucketCount [0, 50, 100] [25, 150] 0 = 1 := by decide
    have c2 : bucketCount [0, 50, 100] [25, 150] 1 = 0 := by decide
    have cT : inRangeCount [0, 50, 100] [25, 150] = 1 := by decide
    unfold binPercentages
    norm_num [List.range_succ, c1, c2, cT]
  · norm_num

/-- C4 (amended): `bin_summary` excludes out-of-range values from every
bucket and computes each percentage as (count in bucket / number of
in-range values) × 100, so whenever at least one value is in range the
percentages sum to exactly 100 — out-of-range values do not reduce the sum.
On `[80, 20, 15, 95, 60]` with boundaries `[0, 50, 100]` it reports, from
the highest bucket down, 60 percent (for `>=50%`) and 40 percent (for
`<50%`). -/
theorem c4_percentages_normalized_by_inrange :
    (∀ bins vals : List ℚ, 0 < inRangeCount bins vals →
        (binPercentages bins vals).sum = 100) ∧
    binPercentages [0, 50, 100] [80, 20, 15, 95, 60] = [60, 40] := by
  constructor
  · exact binPercentages_sum
  · have c1 : bucketCount [0, 50, 100] [80, 20, 15, 95, 60] 0 = 2 := by
      decide
    have c2 : bucketCount [0, 50, 100] [80, 20, 15, 95, 60] 1 = 3 := by
      decide
    have cT : inRangeCount [0, 50, 100] [80, 20, 15, 95, 60] = 5 := by
      decide
    unfold binPercentages
    norm_num [List.range_succ, c1, c2, cT]

/-- C4 witness: the amended sum statement at the concrete out-of-range
input. -/
theorem c4_witness : (binPercentages [0, 50, 100] [25, 150]).sum = 100 :=
  c4_percentages_normalized_by_inrange.1 [0, 50, 100] [25, 150] (by decide)

/-- C7 counterexample: on an all-missing column `compute_summary_stats`
silently returns NaN (`none`) for mean, median, min and max — `describe()`
raises nothing, so no `EmptyColumnError` (or any error) occurs. -/
theorem c7_counterexample :
    compute_summary_stats [none, none] =
      { mean := none, median := none, minV := none, maxV := none } := by
  decide

/-- C7 (amended): `compute_summary_stats` never fails: on an empty or
all-missing column it returns NaN (`none`) for all four statistics, and on
a column with at least one non-missing value all four statistics are
defined. -/
theorem c7_stats_silent_nan (col : List (Option ℚ)) :
    (nonMissing col = [] →
      compute_summary_stats col =
        { mean := none, median := none, minV := none, maxV := none }) ∧
    (nonMissing col ≠ [] →
      (compute_summary_stats col).mean.isSome = true ∧
      (compute_summary_stats col).median.isSome = true ∧
      (compute_summary_stats col).minV.isSome = true ∧
      (compute_summary_stats col).maxV.isSome = true) := by
  constructor
  · intro h
    simp [compute_summary_stats, h]
  · intro h
    obtain ⟨x, xs, hx⟩ := List.exists_cons_of_ne_nil h
    simp [compute_summary_stats, hx, List.min?_cons, List.max?_cons]

/-- C7 witness: the amended statement at an all-missing column and at a
partly missing column. -/
theorem c7_witness :
    compute_summary_stats [none] =
      { mean := none, median := none, minV := none, maxV := none } ∧
    (compute_summary_stats [some 1, none, some 3]).mean.isSome = true :=
  ⟨(c7_stats_silent_nan [none]).1 (by decide),
   ((c7_stats_silent_nan [some 1, none, some 3]).2 (by decide)).1⟩

/-- C8 counterexample: `bin_summary` is not pure — it mutates its input
table by writing the computed `bin` column onto it
(`df["bin"] = pd.cut(...)`, line 71), so the frame after the call differs
from the frame before it. -/
theorem c8_counterexample :
    (bin_summary { values := [10], binCol := none } [0, 50, 100]).1 ≠
      { values := [10], binCol := none } := by
  decide

/-- C8 (amended): `compute_summary_stats` reads its column without
modifying any table, and the only mutation `bin_summary` performs is
writing the computed `bin` column onto the input frame: the values column
is untouched, and the output frame equals the input exactly when the input
already carried that computed `bin` column.  (Neither function touches the
global float-format option; the pipeline mutates it elsewhere, in
`_read_all_jobs` (line 213) and `dask_csg_report` (line 337).) -/
theorem c8_bin_summary_mutation (t : BinTable) (bins : List ℚ) :
    (bin_summary t bins).1.values = t.values ∧
    ((bin_summary t bins).1 = t ↔
      t.binCol = some (t.values.map (cutAssign bins))) := by
  constructor
  · rfl
  · constructor
    · intro h
      exact (congrArg BinTable.binCol h).symm
    · intro h
      cases t
      simp only [bin_summary] at h ⊢
      simp_all

/-- `addMetric` only fills in the metric column. -/
@[simp]
theorem addMetric_user (a : UserAgg) : (addMetric a).user = a.user := rfl

@[simp]
theorem addMetric_pctMean (a : UserAgg) :
    (addMetric a).pctMean = a.pctMean := rfl

@[simp]
theorem addMetric_unusedMemMean (a : UserAgg) :
    (addMetric a).unusedMemMean = a.unusedMemMean := rfl

@[simp]
theorem addMetric_elapsedMean (a : UserAgg) :
    (addMetric a).elapsedMean = a.elapsedMean := rfl

@[simp]
theorem addMetric_jobCount (a : UserAgg) :
    (addMetric a).jobCount = a.jobCount := rfl

@[simp]
theorem addMetric_unusedCoreHours (a : UserAgg) :
    (addMetric a).unusedCoreHours =
      a.unusedMemMean * a.elapsedMean * (a.jobCount : ℚ) := rfl

/-- A name is a group key exactly when some row carries it. -/
theorem mem_sortedUsers (l : List FJob) (u : String) :
    u ∈ sortedUsers l ↔ u ∈ l.map (·.user) := by
  unfold sortedUsers
  rw [List.mem_dedup, (List.perm_insertionSort _ _).mem_iff]

/-- Membership in the ranked report: exactly the aggregates of group keys
with non-negative mean percentage, with the metric filled in. -/
theorem mem_dask_csg_report (l : List FJob) (a : UserAgg) :
    a ∈ dask_csg_report l ↔
      ∃ u ∈ sortedUsers l,
        0 ≤ (aggFor l u).pctMean ∧ a = addMetric (aggFor l u) := by
  unfold dask_csg_report
  rw [(List.perm_insertionSort metricGE _).mem_iff]
  simp only [List.mem_map, List.mem_filter, decide_eq_true_eq]
  constructor
  · rintro ⟨b, ⟨⟨u, hu, rfl⟩, hp⟩, rfl⟩
    exact ⟨u, hu, hp, rfl⟩
  · rintro ⟨u, hu, hp, rfl⟩
    exact ⟨aggFor l u, ⟨⟨u, hu, rfl⟩, hp⟩, rfl⟩

/-- C6: the CSG report groups rows by user; every emitted row aggregates
one user's jobs (means of unused memory, percentage and elapsed hours, and
the job count), carries
`unused_core_hours = mean unused memory * mean elapsed hours * job count`,
and has non-negative mean unused-memory percentage; a user appears in the
output exactly when its mean percentage is non-negative; and the output is
sorted in descending order of `unused_core_hours`. -/
theorem c6_csg_report_ranking (l : List FJob) :
    List.Sorted metricGE (dask_csg_report l) ∧
    (∀ a ∈ dask_csg_report l,
        0 ≤ a.pctMean ∧
        a.unusedCoreHours =
          a.unusedMemMean * a.elapsedMean * (a.jobCount : ℚ) ∧
        a.unusedMemMean = listMean ((groupRows l a.user).map (·.unusedMem)) ∧
        a.elapsedMean = listMean ((groupRows l a.user).map (·.elapsedH)) ∧
        a.pctMean = listMean ((groupRows l a.user).map (·.unusedMemPct)) ∧
        a.jobCount = (groupRows l a.user).length) ∧
    (∀ u : String, u ∈ l.map (·.user) →
        (0 ≤ listMean ((groupRows l u).map (·.unusedMemPct)) ↔
          ∃ a ∈ dask_csg_report l, a.user = u)) := by
  refine ⟨?_, ?_, ?_⟩
  · exact List.sorted_insertionSort metricGE _
  · intro a ha
    obtain ⟨u, hu, hp, rfl⟩ := (mem_dask_csg_report l a).mp ha
    refine ⟨by simpa using hp, by simp, ?_, ?_, ?_, ?_⟩
    all_goals simp [aggFor]
  · intro u hu
    constructor
    · intro hpos
      refine ⟨addMetric (aggFor l u), ?_, rfl⟩
      exact (mem_dask_csg_report l _).mpr
        ⟨u, (mem_sortedUsers l u).mpr hu, by simpa [aggFor] using hpos, rfl⟩
    · rintro ⟨a, ha, rfl⟩
      obtain ⟨u', hu', hp, rfl⟩ := (mem_dask_csg_report l a).mp ha
      simpa [aggFor] using hp

/-- C6 witness: on `csgJobs` (scenario with users `A` at mean 90 percent
and `B` at mean −5 percent) user `A` appears in the ranked output and user
`B` does not. -/
theorem c6_witness :
    (∃ a ∈ dask_csg_report csgJobs, a.user = "A") ∧
    ¬(∃ a ∈ dask_csg_report csgJobs, a.user = "B") := by
  constructor
  · apply ((c6_csg_report_ranking csgJobs).2.2 "A" (by decide)).mp
    have hg : (groupRows csgJobs "A").map (·.unusedMemPct) = [90, 90, 90] := by
      decide
    rw [hg]
    norm_num [listMean]
  · intro hB
    have hle := ((c6_csg_report_ranking csgJobs).2.2 "B" (by decide)).mpr hB
    have hg : (groupRows csgJobs "B").map (·.unusedMemPct) = [-5, -5] := by
      decide
    rw [hg] at hle
    norm_num [listMean] at hle

/-- C3: malformed CSV content does crash the ingestor.  On a file whose
third line has three fields against a two-field header, the unguarded
`pd.read_csv` of line 138 raises a tokenizing error that no handler
catches — the `try`/`except` of lines 141-150 sits below it and never
runs — so the ingestor ends in an uncaught exception instead of a warning
and early stop. -/
theorem c3_malformed_csv_crash :
    readAllJobs (some ["A,B", "1,2", "1,2,3"]) =
      .crash "ParserError: Error tokenizing data" := by
  decide

/-- C10: when the input file is missing, or its text contains the marker
phrase, `_read_all_jobs` warns and returns before line 235 ever assigns
`self.dask_jobs`; any later call to `dask_user_report` or
`dask_csg_report` on the object therefore fails with an `AttributeError`
instead of producing an empty report. -/
theorem c10_unset_attr_reports_fail :
    (dask_jobs_attr (readAllJobs none) = none ∧
     dask_user_report (dask_jobs_attr (readAllJobs none)) =
       .error "AttributeError" ∧
     dask_csg_report_run (dask_jobs_attr (readAllJobs none)) =
       .error "AttributeError") ∧
    (∀ lines : List String, markerPresent lines = true →
      dask_jobs_attr (readAllJobs (some lines)) = none ∧
      dask_user_report (dask_jobs_attr (readAllJobs (some lines))) =
        .error "AttributeError" ∧
      dask_csg_report_run (dask_jobs_attr (readAllJobs (some lines))) =
        .error "AttributeError") := by
  constructor
  · exact ⟨rfl, rfl, rfl⟩
  · intro lines h
    simp [readAllJobs, dask_jobs_attr, dask_user_report,
      dask_csg_report_run, h]

/-- C10 witness: at a one-line file consisting of the marker phrase, the
attribute is unset and both reports fail. -/
theorem c10_witness :
    dask_jobs_attr
      (readAllJobs (some ["No jobs found matching search criteria"])) =
        none ∧
    dask_user_report (dask_jobs_attr
      (readAllJobs (some ["No jobs found matching search criteria"]))) =
        .error "AttributeError" :=
  ⟨(c10_unset_attr_reports_fail.2
      ["No jobs found matching search criteria"] (by decide)).1,
   (c10_unset_attr_reports_fail.2
      ["No jobs found matching search criteria"] (by decide)).2.1⟩

end NDM
